import Mathlib

/-!
Verification of the MSN-Messenger-Server MSNP notification server.

This file gives a shallow embedding of the parts of the server that the
frozen claims are about, and settles each claim against it.

The repository contains two parallel server implementations:
* the asyncio server (`src/server/protocol_handler.py`,
  `src/server/client_manager.py`, `src/utils/database.py`), and
* the threaded server (`src/msn_messenger_server.py`).

Each Lean definition below is translated from one named Python function.
Timestamps (`connected_at`, `last_activity`, `added_at`, `created_at`) and
logging calls are elided: no claim mentions them and they influence no
control flow in the translated functions.  Socket writers are modelled by
an abstract numeric handle, and the lines written to a socket are
returned as explicit string lists.
-/

namespace MSNServer

/-- A row of the `users` table: the columns the translated code reads
(`email` for lookups, `password` for the MD5 check in
`MSNPServer.authenticate_user`). -/
structure User where
  email : String
  password : String
deriving Repr, DecidableEq

/-- `DatabaseManager.get_user_by_email` / the `SELECT ... WHERE email = ?`
lookups of `msn_messenger_server.py`: first row whose `email` column
equals the argument. -/
def getUserByEmail (db : List User) (email : String) : Option User :=
  db.find? (fun u => u.email == email)

/-! ## ClientManager (`src/server/client_manager.py`) -/

/-- One entry of `ClientManager.clients`: the fields the translated code
reads and writes (`id`, `writer`, `email`, `status`). -/
structure ClientInfo where
  id : Nat
  writer : Nat
  email : String
  status : String
deriving Repr, DecidableEq

/-- The mutable state of a `ClientManager`: the `clients` dict in
insertion order, the `email_to_client` dict as an association list in
insertion order, and `next_client_id`. -/
structure CMState where
  clients : List ClientInfo
  emailToClient : List (String × Nat)
  nextClientId : Nat
deriving Repr, DecidableEq

/-- `ClientManager.__init__`: empty dicts, counter starts at 1. -/
def emptyCM : CMState := ⟨[], [], 1⟩

/-- Python dict assignment `m[k] = v`: overwrite the entry when the key is
present, append it otherwise. -/
def setAssoc (m : List (String × Nat)) (k : String) (v : Nat) :
    List (String × Nat) :=
  if m.any (fun p => p.1 == k) then
    m.map (fun p => if p.1 == k then (k, v) else p)
  else m ++ [(k, v)]

/-- Python dict read `m.get(k)`. -/
def lookupAssoc (m : List (String × Nat)) (k : String) : Option Nat :=
  (m.find? (fun p => p.1 == k)).map Prod.snd

/-- Python dict deletion `del m[k]`. -/
def removeAssoc (m : List (String × Nat)) (k : String) :
    List (String × Nat) :=
  m.filter (fun p => p.1 != k)

/-- `ClientManager.add_client(writer, email)`: allocate the next client
id, record the client with status `'NLN'`, point `email_to_client[email]`
at it, and return the id.  The source writes nothing to any socket here
and touches no pre-existing client entry. -/
def addClient (st : CMState) (writer : Nat) (email : String) :
    CMState × Nat :=
  let cid := st.nextClientId
  let info : ClientInfo := ⟨cid, writer, email, "NLN"⟩
  (⟨st.clients ++ [info], setAssoc st.emailToClient email cid, cid + 1⟩,
   cid)

/-- `ClientManager.disconnect_client(writer)`: find the first client whose
writer is the argument, delete it from `clients`, and delete its email
from `email_to_client` when present. -/
def disconnectClient (st : CMState) (writer : Nat) : CMState :=
  match st.clients.find? (fun c => c.writer == writer) with
  | none => st
  | some c =>
    ⟨st.clients.filter (fun x => x.id != c.id),
     if (lookupAssoc st.emailToClient c.email).isSome then
       removeAssoc st.emailToClient c.email
     else st.emailToClient,
     st.nextClientId⟩

/-- `ClientManager.update_client_status(client_id, status)`: overwrite the
status of the client with that id, when it exists. -/
def updateClientStatus (st : CMState) (cid : Nat) (status : String) :
    CMState :=
  if st.clients.any (fun c => c.id == cid) then
    ⟨st.clients.map (fun c =>
        if c.id == cid then { c with status := status } else c),
     st.emailToClient, st.nextClientId⟩
  else st

/-- `ClientManager.get_online_contacts(email)`: every connected client
whose email differs from the argument and whose status is not `'HDN'`,
reported as an (email, status) pair, in registry order. -/
def getOnlineContacts (st : CMState) (email : String) :
    List (String × String) :=
  (st.clients.filter (fun c => c.email != email && c.status != "HDN")).map
    (fun c => (c.email, c.status))

/-! ## Asyncio protocol handler (`src/server/protocol_handler.py`) -/

/-- `MSNPProtocolHandler.send_error(transaction_id, error_code)`: the
line `f'{error_code} {transaction_id}\r\n'`. -/
def sendError (transactionId : String) (errorCode : Nat) : String :=
  toString errorCode ++ " " ++ transactionId ++ "\r\n"

/-- The `supported_versions` list of `MSNPProtocolHandler.handle_ver`,
in its source order (highest preference first). -/
def supportedVersions : List String :=
  ["MSNP21", "MSNP20", "MSNP19", "MSNP18", "MSNP15", "MSNP12", "MSNP11",
   "MSNP10", "MSNP9", "MSNP8"]

/-- The version-selection loop of `MSNPProtocolHandler.handle_ver`: the
first entry of `supported_versions` present in the client's offer, and
the fallback `'MSNP8'` when none is. -/
def selectVersion (clientVersions : List String) : String :=
  (supportedVersions.find? (fun v => clientVersions.contains v)).getD
    "MSNP8"

/-- `MSNPProtocolHandler.handle_ver`: the response line
`f'VER {transaction_id} {selected_version}\r\n'`.  The handler never
closes the connection. -/
def handleVer (transactionId : String) (clientVersions : List String) :
    String :=
  "VER " ++ transactionId ++ " " ++ selectVersion clientVersions ++ "\r\n"

/-- The `USR ... S` (phase-2) branch of `MSNPProtocolHandler.handle_usr`,
lines 121-137.  Inputs: the user store, the session's `self.email` (set
by phase 1, `None` before it), the session's writer handle and the
shared `ClientManager` state, the transaction id, and the client's
`provided_hash` (= `parts[3]`).  Output: the new `self.authenticated`
flag, the updated `ClientManager` state, and the lines written.

The source binds `provided_hash` but never reads it again: when the
identity exists in the store it sets `authenticated`, registers the
client and replies `USR t OK ...` (the comment in the source reads "For
simplicity, accept any hash"); only a missing user yields
`send_error(transaction_id, 911)`.  When `self.email` is still `None`
the guard `if len(parts) >= 4 and self.email` fails and nothing at all
is done. -/
def handleUsrS (db : List User) (sessEmail : Option String)
    (writer : Nat) (cm : CMState) (transactionId providedHash : String) :
    Bool × CMState × List String :=
  match sessEmail with
  | none => (false, cm, [])
  | some em =>
    match getUserByEmail db em with
    | some _ =>
      let r := addClient cm writer em
      (true, r.1,
       ["USR " ++ transactionId ++ " OK " ++ em ++ " " ++ em ++
        " 1 0\r\n"])
    | none => (false, cm, [sendError transactionId 911])

/-- One contact row as returned by
`DatabaseManager.get_user_contacts` (email, nickname, list tag). -/
structure Contact where
  email : String
  nickname : String
  listType : String
deriving Repr, DecidableEq

/-- The per-contact line of `handle_syn` / `handle_syn_command`:
`f'LST {email} {nickname} {list_type}\r\n'`. -/
def lstLine (c : Contact) : String :=
  "LST " ++ c.email ++ " " ++ c.nickname ++ " " ++ c.listType ++ "\r\n"

/-- `MSNPProtocolHandler.handle_syn`: when unauthenticated, the single
error line `911 t`; otherwise one `LST` line per contact in store order
followed (last) by `f'SYN {transaction_id} {len(contacts)} 0\r\n'`. -/
def handleSyn (authenticated : Bool) (contacts : List Contact)
    (transactionId : String) : List String :=
  if !authenticated then [sendError transactionId 911]
  else
    contacts.map lstLine ++
      ["SYN " ++ transactionId ++ " " ++ toString contacts.length ++
       " 0\r\n"]

/-- The keys of the `command_handlers` dict of
`MSNPProtocolHandler.process_command`. -/
def knownVerbs : List String :=
  ["VER", "CVR", "USR", "SYN", "CHG", "MSG", "ADD", "REM", "LST", "CAL",
   "ANS", "OUT", "PNG", "QNG"]

/-- Python `str.split(' ')` on a character list: cut at every single
space, keeping empty segments. -/
def splitSpacesAux : List Char → List Char → List (List Char)
  | [], acc => [acc.reverse]
  | c :: cs, acc =>
    if c = ' ' then acc.reverse :: splitSpacesAux cs []
    else splitSpacesAux cs (c :: acc)

/-- Python `message.split(' ')` as used by
`MSNPProtocolHandler.process_command`. -/
def pySplitSpace (message : String) : List String :=
  (splitSpacesAux message.data []).map String.mk

/-- The routing prefix of `MSNPProtocolHandler.process_command`, lines
43-50: `parts = message.split(' ')`; when `len(parts) < 2` the method
returns without doing anything; otherwise the verb `parts[0]` and the
transaction id `parts[1]` are extracted and the verb is looked up in
`command_handlers`.  `none` means the line was dropped before any
handler could run. -/
def routeCommand (message : String) : Option (String × String) :=
  let parts := pySplitSpace message
  if parts.length < 2 then none
  else some (parts.getD 0 "", parts.getD 1 "0")

/-- `MSNPProtocolHandler.handle_out`: remove the client from the
`ClientManager` (by its writer) and send the line `OUT\r\n`.  The
handler does not close the writer nor break the read loop. -/
def handleOut (cm : CMState) (writer : Nat) : CMState × List String :=
  (disconnectClient cm writer, ["OUT\r\n"])

/-! ## Contact store (`src/utils/database.py`) -/

/-- A row of the `contacts` table of `DatabaseManager`: owner, peer,
nickname, list tag.  The table declares
`UNIQUE(owner_email, contact_email, list_type)`. -/
structure DBContact where
  owner : String
  peer : String
  nickname : String
  listType : String
deriving Repr, DecidableEq

/-- The `UNIQUE(owner_email, contact_email, list_type)` key of the
`contacts` table. -/
def contactKeyMatches (c : DBContact) (owner peer listType : String) :
    Bool :=
  c.owner == owner && c.peer == peer && c.listType == listType

/-- `DatabaseManager.add_contact`: an `INSERT` that appends the row, or
raises `IntegrityError` (returning `False`, store unchanged) when a row
with the same unique key already exists. -/
def addContact (store : List DBContact)
    (owner peer nickname listType : String) : List DBContact × Bool :=
  if store.any (fun c => contactKeyMatches c owner peer listType) then
    (store, false)
  else (store ++ [⟨owner, peer, nickname, listType⟩], true)

/-- `DatabaseManager.remove_contact`: `DELETE ... WHERE owner_email = ?
AND contact_email = ? AND list_type = ?`. -/
def removeContact (store : List DBContact)
    (owner peer listType : String) : List DBContact :=
  store.filter (fun c => !(contactKeyMatches c owner peer listType))

/-! ## Threaded server (`src/msn_messenger_server.py`) -/

/-- `MSNPServer.supported_versions` of the threaded server. -/
def supportedVersionsThreaded : List String :=
  ["MSNP2", "MSNP3", "MSNP4", "MSNP5", "MSNP6", "MSNP7"]

/-- The loop of `MSNPServer.handle_ver_command`: iterate
`reversed(self.supported_versions)` (so highest first), pick the first
version present in the client's offer, and fall back to `'MSNP7'`. -/
def selectVersionThreaded (clientVersions : List String) : String :=
  (supportedVersionsThreaded.reverse.find?
      (fun v => clientVersions.contains v)).getD "MSNP7"

/-- `MSNPServer.handle_ver_command`: the response line
`f'VER {transaction_id} {supported_version}\r\n'`.  Like the asyncio
handler it never closes the connection. -/
def handleVerThreaded (transactionId : String)
    (clientVersions : List String) : String :=
  "VER " ++ transactionId ++ " " ++ selectVersionThreaded clientVersions
    ++ "\r\n"

/-- `MSNPServer.send_error(client_info, error_code)`: the line
`f'{error_code}\r\n'` - it takes no transaction id. -/
def sendErrorThreaded (errorCode : String) : String :=
  errorCode ++ "\r\n"

/-- `MSNPServer.authenticate_user(username, client_hash, challenge)`,
parametrised over the MD5 hex digest function: look the user up, build
`expected = md5(md5(password) + challenge)` and compare to the client's
hash after lowercasing both sides; a missing user yields `False`. -/
def authenticateUser (md5 : String → String) (db : List User)
    (username clientHash challenge : String) : Bool :=
  match getUserByEmail db username with
  | none => false
  | some u =>
    let passwordHash := md5 u.password
    let expectedHash := md5 (passwordHash ++ challenge)
    clientHash.toLower == expectedHash.toLower

/-- One entry of the threaded server's `self.clients` dict: the fields
`broadcast_status_change` reads (`id` via the dict key, `email`,
`status`, `authenticated`, and the truthiness of `socket`). -/
structure TClient where
  id : Nat
  email : String
  status : String
  authenticated : Bool
  hasSocket : Bool
deriving Repr, DecidableEq

/-- The `status_message` built by `MSNPServer.broadcast_status_change`:
`f'NLN {status} {email} {display_name}\r\n'`. -/
def statusLine (status email displayName : String) : String :=
  "NLN " ++ status ++ " " ++ email ++ " " ++ displayName ++ "\r\n"

/-- `MSNPServer.broadcast_status_change(client_info)`: send the sender's
status line to every other client that is authenticated and has a
socket.  `display_name` comes from a database read
(`get_display_name`), passed here as a parameter.  The function
consults no contact list of any kind. -/
def broadcastStatusChange (clients : List TClient) (sender : TClient)
    (displayName : String) : List (Nat × String) :=
  (clients.filter (fun c =>
      c.id != sender.id && c.authenticated && c.hasSocket)).map
    (fun c => (c.id, statusLine sender.status sender.email displayName))

/-- `MSNPServer.handle_syn_command`: when unauthenticated, the single
line `send_error(client_info, "911")`; otherwise the header
`f'SYN {transaction_id} {len(contacts)} 0\r\n'` first, then one `LST`
line per contact in store order. -/
def handleSynThreaded (authenticated : Bool) (contacts : List Contact)
    (transactionId : String) : List String :=
  if !authenticated then [sendErrorThreaded "911"]
  else
    ("SYN " ++ transactionId ++ " " ++ toString contacts.length ++
     " 0\r\n") :: contacts.map lstLine

/-! ## ClientManager operation sequences

The only call sites in the repository that mutate a `ClientManager` are
`handle_usr` (via `add_client`), `handle_out` and the connection-cleanup
path (via `disconnect_client`), and `handle_chg` (via
`update_client_status`, its sole caller).  A post-authentication command
history of a server therefore acts on the `ClientManager` state as a
sequence of these three operations; a client that never sends `CHG`
contributes no `update` for its own client id. -/

/-- One mutating `ClientManager` call. -/
inductive CMOp where
  | add (writer : Nat) (email : String)
  | disconnect (writer : Nat)
  | update (cid : Nat) (status : String)
deriving Repr, DecidableEq

/-- Run one mutating call against the state. -/
def applyOp (st : CMState) : CMOp → CMState
  | .add w e => (addClient st w e).1
  | .disconnect w => disconnectClient st w
  | .update cid s => updateClientStatus st cid s

/-- Run a call sequence left to right. -/
def applyOps (st : CMState) (ops : List CMOp) : CMState :=
  ops.foldl applyOp st

/-- The calls a given session (client id `cid`, writer `w`) does not
itself trigger: any `add`, a `disconnect` of a different writer, an
`update` of a different client id.  A session that never sends `CHG` and
stays connected only ever sees such calls from the rest of the server. -/
def noTouch (cid w : Nat) : CMOp → Bool
  | .add _ _ => true
  | .disconnect wr => wr != w
  | .update c _ => c != cid

/-- Wellformedness of a `ClientManager` state, maintained from
`ClientManager.__init__` on: client ids are pairwise distinct and below
`next_client_id` (they are allocated from a strictly increasing
counter). -/
def wf (st : CMState) : Prop :=
  (st.clients.map (fun c => c.id)).Nodup ∧
  ∀ c ∈ st.clients, c.id < st.nextClientId

/-! ## Helper lemmas -/

/-- Looking up a key after overwriting it in place yields the new
value. -/
theorem lookupAssoc_map_set (m : List (String × Nat)) (k : String)
    (v : Nat) (h : m.any (fun p => p.1 == k) = true) :
    lookupAssoc (m.map (fun p => if p.1 == k then (k, v) else p)) k =
      some v := by
  induction m with
  | nil => simp at h
  | cons p ps ih =>
    rw [List.any_cons] at h
    cases hpk : (p.1 == k) with
    | true =>
      show lookupAssoc ((if p.1 == k then (k, v) else p) ::
        ps.map (fun p => if p.1 == k then (k, v) else p)) k = some v
      rw [hpk]
      show lookupAssoc ((k, v) :: _) k = some v
      unfold lookupAssoc
      rw [List.find?_cons_of_pos _ (by simp)]
      rfl
    | false =>
      have hps : ps.any (fun p => p.1 == k) = true := by
        simpa [hpk] using h
      show lookupAssoc ((if p.1 == k then (k, v) else p) ::
        ps.map (fun p => if p.1 == k then (k, v) else p)) k = some v
      rw [hpk]
      show lookupAssoc (p :: _) k = some v
      unfold lookupAssoc
      rw [List.find?_cons_of_neg _ (by simp [hpk])]
      exact ih hps

/-- Looking up a key just appended to a map that did not contain it
yields the appended value. -/
theorem lookupAssoc_append_fresh (m : List (String × Nat)) (k : String)
    (v : Nat) (h : m.any (fun p => p.1 == k) = false) :
    lookupAssoc (m ++ [(k, v)]) k = some v := by
  induction m with
  | nil =>
    unfold lookupAssoc
    rw [List.nil_append, List.find?_cons_of_pos _ (by simp)]
    rfl
  | cons p ps ih =>
    rw [List.any_cons, Bool.or_eq_false_iff] at h
    show lookupAssoc (p :: (ps ++ [(k, v)])) k = some v
    unfold lookupAssoc
    rw [List.find?_cons_of_neg _ (by simp [h.1])]
    exact ih h.2

/-- Python dict assignment followed by lookup of the same key yields the
assigned value. -/
theorem lookupAssoc_setAssoc_self (m : List (String × Nat)) (k : String)
    (v : Nat) : lookupAssoc (setAssoc m k v) k = some v := by
  unfold setAssoc
  by_cases h : m.any (fun p => p.1 == k) = true
  · rw [if_pos h]; exact lookupAssoc_map_set m k v h
  · rw [if_neg h]
    exact lookupAssoc_append_fresh m k v (Bool.not_eq_true _ ▸ h)

/-- The element returned by `List.find?` sits at the least index among
all elements satisfying the predicate. -/
theorem find?_min_indexOf {l : List String} {p : String → Bool}
    {a : String} (h : l.find? p = some a) :
    ∀ b, b ∈ l → p b = true → l.indexOf a ≤ l.indexOf b := by
  induction l with
  | nil => simp at h
  | cons x xs ih =>
    intro b hb hpb
    by_cases hx : p x = true
    · rw [List.find?_cons_of_pos _ hx] at h
      injection h with h
      subst h
      rw [List.indexOf_cons_self]
      exact Nat.zero_le _
    · rw [List.find?_cons_of_neg _ hx] at h
      have hpa : p a = true := List.find?_some h
      have hax : x ≠ a := fun e => hx (e ▸ hpa)
      have hbx : x ≠ b := fun e => hx (e ▸ hpb)
      have hbxs : b ∈ xs := by
        rcases List.mem_cons.mp hb with e | e
        · exact absurd e.symm hbx
        · exact e
      rw [List.indexOf_cons_ne _ hax, List.indexOf_cons_ne _ hbx]
      exact Nat.succ_le_succ (ih h b hbxs hpb)

/-- Characterisation of the first-match version scan shared by both
`handle_ver` implementations: scanning a preference list `l` for the
first entry the client also offers yields, when the intersection is
nonempty, a common dialect of least index in `l`; when it is empty, the
scan yields the fallback. -/
theorem find?_getD_version_spec (l : List String) (fallback : String)
    (cvs : List String) :
    ((∃ v, v ∈ l ∧ v ∈ cvs) →
      (l.find? (fun v => cvs.contains v)).getD fallback ∈ l ∧
      (l.find? (fun v => cvs.contains v)).getD fallback ∈ cvs ∧
      ∀ v, v ∈ l → v ∈ cvs →
        l.indexOf ((l.find? (fun v => cvs.contains v)).getD fallback) ≤
          l.indexOf v) ∧
    ((¬∃ v, v ∈ l ∧ v ∈ cvs) →
      (l.find? (fun v => cvs.contains v)).getD fallback = fallback) := by
  constructor
  · rintro ⟨v, hv, hvc⟩
    have hcont : cvs.contains v = true := by
      simpa [List.contains] using List.elem_iff.mpr hvc
    rcases hf : l.find? (fun w => cvs.contains w) with _ | w
    · exact absurd hcont (List.find?_eq_none.mp hf v hv)
    · have hw : cvs.contains w = true := List.find?_some hf
      have hwmem : w ∈ l := List.mem_of_find?_eq_some hf
      simp only [hf, Option.getD_some]
      refine ⟨hwmem, ?_, ?_⟩
      · have : cvs.elem w = true := by simpa [List.contains] using hw
        exact List.elem_iff.mp this
      · intro u hu huc
        have hucont : cvs.contains u = true := by
          simpa [List.contains] using List.elem_iff.mpr huc
        exact find?_min_indexOf hf u hu hucont
  · intro hne
    have hnone : l.find? (fun w => cvs.contains w) = none := by
      rw [List.find?_eq_none]
      intro x hx hpx
      refine hne ⟨x, hx, ?_⟩
      have : cvs.elem x = true := by simpa [List.contains] using hpx
      exact List.elem_iff.mp this
    rw [hnone]
    rfl

/-- `add_client` preserves wellformedness: the freshly allocated id is
new, and the counter moves past it. -/
theorem wf_addClient {st : CMState} (h : wf st) (w : Nat) (e : String) :
    wf (addClient st w e).1 := by
  obtain ⟨hnd, hlt⟩ := h
  constructor
  · show ((st.clients ++ [ClientInfo.mk st.nextClientId w e "NLN"]).map
      (fun c => c.id)).Nodup
    rw [List.map_append, List.nodup_append]
    refine ⟨hnd, by simp, ?_⟩
    intro i hi hmem
    rcases List.mem_map.mp hi with ⟨c, hc, hci⟩
    have hlt2 := hlt c hc
    simp only [List.map_cons, List.map_nil, List.mem_singleton] at hmem
    omega
  · intro c hc
    rcases List.mem_append.mp hc with h1 | h1
    · exact Nat.lt_succ_of_lt (hlt c h1)
    · rw [List.mem_singleton] at h1
      subst h1
      exact Nat.lt_succ_self _

/-- `disconnect_client` preserves wellformedness: it only removes
entries. -/
theorem wf_disconnectClient {st : CMState} (h : wf st) (w : Nat) :
    wf (disconnectClient st w) := by
  obtain ⟨hnd, hlt⟩ := h
  unfold disconnectClient
  cases hf : st.clients.find? (fun c => c.writer == w) with
  | none => exact ⟨hnd, hlt⟩
  | some d =>
    refine ⟨?_, ?_⟩
    · exact List.Nodup.sublist
        (List.Sublist.map _ (List.filter_sublist _)) hnd
    · intro c hc
      exact hlt c (List.mem_filter.mp hc).1

/-- `update_client_status` preserves wellformedness: it rewrites a
status but keeps every id. -/
theorem wf_updateClientStatus {st : CMState} (h : wf st) (cid : Nat)
    (s : String) : wf (updateClientStatus st cid s) := by
  obtain ⟨hnd, hlt⟩ := h
  unfold updateClientStatus
  by_cases hany : st.clients.any (fun c => c.id == cid) = true
  · rw [if_pos hany]
    refine ⟨?_, ?_⟩
    · show ((st.clients.map (fun c =>
        if c.id == cid then { c with status := s } else c)).map
          (fun c => c.id)).Nodup
      rw [List.map_map]
      have heq : st.clients.map ((fun c => c.id) ∘ (fun c =>
          if c.id == cid then { c with status := s } else c)) =
          st.clients.map (fun c => c.id) := by
        apply List.map_congr_left
        intro a _
        by_cases hid : a.id = cid <;> simp [hid]
      rw [heq]
      exact hnd
    · intro c hc
      rcases List.mem_map.mp hc with ⟨a, ha, hac⟩
      have hlta := hlt a ha
      subst hac
      by_cases hid : a.id = cid <;> simpa [hid] using hlta
  · rw [if_neg hany]; exact ⟨hnd, hlt⟩

/-- A client untouched by one `ClientManager` call stays registered
unchanged. -/
theorem mem_applyOp_of_noTouch {st : CMState} {c : ClientInfo}
    (hwf : wf st) (hc : c ∈ st.clients) (op : CMOp)
    (hop : noTouch c.id c.writer op = true) :
    c ∈ (applyOp st op).clients := by
  cases op with
  | add w e =>
    show c ∈ st.clients ++ [⟨st.nextClientId, w, e, "NLN"⟩]
    exact List.mem_append.mpr (Or.inl hc)
  | disconnect w =>
    simp only [applyOp, disconnectClient]
    cases hf : st.clients.find? (fun x => x.writer == w) with
    | none => simp only [hf]; exact hc
    | some d =>
      simp only [hf]
      have hdw : d.writer = w := by simpa using List.find?_some hf
      have hdm : d ∈ st.clients := List.mem_of_find?_eq_some hf
      have hwn : w ≠ c.writer := by simpa [noTouch] using hop
      have hne : c.id ≠ d.id := by
        intro he
        have hcd : c = d := List.inj_on_of_nodup_map hwf.1 hc hdm he
        exact hwn (by rw [hcd, hdw])
      exact List.mem_filter.mpr ⟨hc, by simpa using hne⟩
  | update cid s =>
    simp only [applyOp, updateClientStatus]
    have hcn : cid ≠ c.id := by simpa [noTouch] using hop
    by_cases hany : st.clients.any (fun x => x.id == cid) = true
    · rw [if_pos hany]
      refine List.mem_map.mpr ⟨c, hc, ?_⟩
      simp [Ne.symm hcn]
    · rw [if_neg hany]; exact hc

/-- Each `ClientManager` call keeps the state wellformed. -/
theorem wf_applyOp {st : CMState} (h : wf st) (op : CMOp) :
    wf (applyOp st op) := by
  cases op with
  | add w e => exact wf_addClient h w e
  | disconnect w => exact wf_disconnectClient h w
  | update cid s => exact wf_updateClientStatus h cid s

/-- A client untouched by a whole call sequence stays registered
unchanged. -/
theorem mem_applyOps_of_noTouch {c : ClientInfo} :
    ∀ (ops : List CMOp) (st : CMState), wf st → c ∈ st.clients →
      ops.all (noTouch c.id c.writer) = true →
      c ∈ (applyOps st ops).clients := by
  intro ops
  induction ops with
  | nil => intro st _ hc _; exact hc
  | cons op rest ih =>
    intro st hwf hc hall
    rw [List.all_cons, Bool.and_eq_true] at hall
    exact ih (applyOp st op) (wf_applyOp hwf op)
      (mem_applyOp_of_noTouch hwf hc op hall.1) hall.2

/-! ## Claims -/

/-- A concrete user store holding one of the accounts the repository
seeds for testing. -/
def sampleUserDb : List User := [⟨"testuser@hotmail.com", "test123"⟩]

/-- C1: the claim says phase-2 `USR` authenticates iff the identity
exists AND the client hash equals `MD5(MD5(credential) || nonce)`
(case-insensitively), with a 911 error on any mismatch.  In the code,
`MSNPProtocolHandler.handle_usr` binds `provided_hash` and never reads
it: whenever the identity exists it sets `authenticated` and replies
`USR t OK ...`.  Here two distinct (already lowercase) hashes both
authenticate and both receive the `OK` reply; since the expected digest
is one fixed string, at most one of the two could match it, so at least
one mismatching hash is accepted and never answered with 911.  This
contradicts the code's own comment ("in real implementation, verify MD5
challenge") and the spec's mandate, hence a code bug. -/
theorem usr_phase2_accepts_mismatched_hashes :
    (handleUsrS sampleUserDb (some "testuser@hotmail.com") 7 emptyCM
        "4" "aaaa").1 = true ∧
    (handleUsrS sampleUserDb (some "testuser@hotmail.com") 7 emptyCM
        "4" "bbbb").1 = true ∧
    (handleUsrS sampleUserDb (some "testuser@hotmail.com") 7 emptyCM
        "4" "aaaa").2.2 =
      ["USR 4 OK testuser@hotmail.com testuser@hotmail.com 1 0\r\n"] ∧
    (handleUsrS sampleUserDb (some "testuser@hotmail.com") 7 emptyCM
        "4" "bbbb").2.2 =
      ["USR 4 OK testuser@hotmail.com testuser@hotmail.com 1 0\r\n"] ∧
    ("aaaa" : String) ≠ "bbbb" := by
  refine ⟨rfl, rfl, rfl, rfl, by decide⟩

/-- C2 counterexample: a client offer with empty intersection against
the server's supported set.  The claim requires the reply `VER 1 0` and
a connection close; `MSNPProtocolHandler.handle_ver` instead falls back
to `'MSNP8'` and keeps the connection open (the handler has no closing
path at all). -/
theorem ver_empty_intersection_not_zero :
    handleVer "1" ["MSNP99"] = "VER 1 MSNP8\r\n" ∧
    handleVer "1" ["MSNP99"] ≠ "VER 1 0\r\n" := by
  refine ⟨rfl, by decide⟩

/-- C2 as amended: each of the two `VER` handlers replies `VER t w`
where `w` is the greatest element of the intersection of the client
offer with that handler's supported set under that handler's ordering
(least index in the asyncio `supported_versions` list; least index in
the reversed threaded list, whose scan starts at `MSNP7`); when the
intersection is empty neither replies `VER t 0` nor closes: the
asyncio handler falls back to `'MSNP8'` and the threaded handler to
`'MSNP7'`, each sent as a normal `VER` reply. -/
theorem ver_selects_greatest_or_fallback (t : String)
    (cvs : List String) :
    ((∃ v, v ∈ supportedVersions ∧ v ∈ cvs) →
      selectVersion cvs ∈ supportedVersions ∧ selectVersion cvs ∈ cvs ∧
      ∀ v, v ∈ supportedVersions → v ∈ cvs →
        supportedVersions.indexOf (selectVersion cvs) ≤
          supportedVersions.indexOf v) ∧
    ((¬∃ v, v ∈ supportedVersions ∧ v ∈ cvs) →
      selectVersion cvs = "MSNP8") ∧
    handleVer t cvs = "VER " ++ t ++ " " ++ selectVersion cvs ++
      "\r\n" ∧
    ((∃ v, v ∈ supportedVersionsThreaded ∧ v ∈ cvs) →
      selectVersionThreaded cvs ∈ supportedVersionsThreaded ∧
      selectVersionThreaded cvs ∈ cvs ∧
      ∀ v, v ∈ supportedVersionsThreaded → v ∈ cvs →
        supportedVersionsThreaded.reverse.indexOf
            (selectVersionThreaded cvs) ≤
          supportedVersionsThreaded.reverse.indexOf v) ∧
    ((¬∃ v, v ∈ supportedVersionsThreaded ∧ v ∈ cvs) →
      selectVersionThreaded cvs = "MSNP7") ∧
    handleVerThreaded t cvs = "VER " ++ t ++ " " ++
      selectVersionThreaded cvs ++ "\r\n" := by
  have ha := find?_getD_version_spec supportedVersions "MSNP8" cvs
  have hb := find?_getD_version_spec supportedVersionsThreaded.reverse
    "MSNP7" cvs
  refine ⟨fun hex => ha.1 hex, fun hne => ha.2 hne, rfl, ?_, ?_, rfl⟩
  · rintro ⟨v, hv, hvc⟩
    obtain ⟨h1, h2, h3⟩ :=
      hb.1 ⟨v, List.mem_reverse.mpr hv, hvc⟩
    exact ⟨List.mem_reverse.mp h1, h2,
      fun u hu huc => h3 u (List.mem_reverse.mpr hu) huc⟩
  · intro hne
    refine hb.2 ?_
    rintro ⟨v, hv, hvc⟩
    exact hne ⟨v, List.mem_reverse.mp hv, hvc⟩

/-- C2 witness: the offer `MSNP8 MSNP18` intersects the asyncio
supported set and `MSNP18` is selected, with index below that of
`MSNP8`; the offer `MSNP2 MSNP5` intersects the threaded supported set
and the selection's index in the threaded scan order is below that of
`MSNP2`. -/
theorem ver_selects_greatest_or_fallback_witness :
    selectVersion ["MSNP8", "MSNP18"] ∈ (["MSNP8", "MSNP18"] :
      List String) ∧
    supportedVersions.indexOf (selectVersion ["MSNP8", "MSNP18"]) ≤
      supportedVersions.indexOf "MSNP8" ∧
    selectVersionThreaded ["MSNP2", "MSNP5"] ∈ (["MSNP2", "MSNP5"] :
      List String) ∧
    supportedVersionsThreaded.reverse.indexOf
        (selectVersionThreaded ["MSNP2", "MSNP5"]) ≤
      supportedVersionsThreaded.reverse.indexOf "MSNP2" :=
  ⟨((ver_selects_greatest_or_fallback "1" ["MSNP8", "MSNP18"]).1
      ⟨"MSNP8", by decide, by decide⟩).2.1,
   ((ver_selects_greatest_or_fallback "1" ["MSNP8", "MSNP18"]).1
      ⟨"MSNP8", by decide, by decide⟩).2.2 "MSNP8" (by decide)
      (by decide),
   ((ver_selects_greatest_or_fallback "2" ["MSNP2", "MSNP5"]).2.2.2.1
      ⟨"MSNP2", by decide, by decide⟩).2.1,
   ((ver_selects_greatest_or_fallback "2" ["MSNP2", "MSNP5"]).2.2.2.1
      ⟨"MSNP2", by decide, by decide⟩).2.2 "MSNP2" (by decide)
      (by decide)⟩

/-- C3 counterexample: two sessions authenticate as `a@x` in sequence.
After the second `ClientManager.add_client` call both sessions are
still registered for the identity: the claim's "the first session is
delivered `OUT OTH`, its writer closed, and it is removed before the
new session is installed" is false (the source's `add_client` writes to
no socket, closes nothing and removes nothing; only
`email_to_client['a@x']` now resolves to the new id 2). -/
theorem registry_keeps_displaced_session :
    ((addClient (addClient emptyCM 10 "a@x").1 11 "a@x").1.clients.filter
        (fun c => c.email == "a@x")).length = 2 ∧
    (⟨1, 10, "a@x", "NLN"⟩ : ClientInfo) ∈
      (addClient (addClient emptyCM 10 "a@x").1 11 "a@x").1.clients ∧
    lookupAssoc
      (addClient (addClient emptyCM 10 "a@x").1 11 "a@x").1.emailToClient
      "a@x" = some 2 := by
  refine ⟨rfl, by decide, rfl⟩

/-- C3 as amended: a second successful authentication for an identity
overwrites `email_to_client` so the identity resolves to the new
session id, but the previous session is neither notified (`add_client`
emits no lines), nor closed, nor removed: the prior `clients` entries
are all kept. -/
theorem add_client_overwrites_mapping_keeps_old_session (st : CMState)
    (w : Nat) (e : String) :
    (addClient st w e).1.clients =
      st.clients ++ [ClientInfo.mk st.nextClientId w e "NLN"] ∧
    lookupAssoc (addClient st w e).1.emailToClient e =
      some (addClient st w e).2 :=
  ⟨rfl, lookupAssoc_setAssoc_self st.emailToClient e st.nextClientId⟩

/-- C4 counterexample: user `a@x` changes status while a second client
`c@x` is online.  No contact list relates the two - indeed
`MSNPServer.broadcast_status_change` takes no contact-list input at all,
so the claim's interested set `S` (RL membership plus the AL/BL check)
is empty - yet `c@x` receives the presence line.  This falsifies "no
session outside `S` receives any line". -/
theorem broadcast_reaches_unrelated_peer :
    broadcastStatusChange
        [⟨1, "a@x", "BSY", true, true⟩, ⟨2, "c@x", "NLN", true, true⟩]
        ⟨1, "a@x", "BSY", true, true⟩ "a@x" =
      [(2, "NLN BSY a@x a@x\r\n")] := rfl

/-- C4 as amended: a presence line about the sender is delivered to
exactly the other connected clients that are authenticated and hold a
socket, regardless of any FL/AL/BL/RL relationship (the code consults
no contact list): every such client receives the line, and every
delivery goes to such a client. -/
theorem broadcast_delivers_to_all_other_authenticated
    (clients : List TClient) (sender : TClient) (dn : String) :
    (∀ p ∈ clients,
      (p.id != sender.id && p.authenticated && p.hasSocket) = true →
      (p.id, statusLine sender.status sender.email dn) ∈
        broadcastStatusChange clients sender dn) ∧
    (∀ d ∈ broadcastStatusChange clients sender dn, ∃ p, p ∈ clients ∧
      d = (p.id, statusLine sender.status sender.email dn) ∧
      p.id ≠ sender.id ∧ p.authenticated = true ∧
      p.hasSocket = true) := by
  constructor
  · intro p hp hcond
    exact List.mem_map.mpr ⟨p, List.mem_filter.mpr ⟨hp, hcond⟩, rfl⟩
  · intro d hd
    rcases List.mem_map.mp hd with ⟨p, hpf, hpd⟩
    rcases List.mem_filter.mp hpf with ⟨hpmem, hcond⟩
    rw [Bool.and_eq_true, Bool.and_eq_true] at hcond
    exact ⟨p, hpmem, hpd.symm, bne_iff_ne.mp hcond.1.1, hcond.1.2,
      hcond.2⟩

/-- C4 witness: in the two-client scene, the delivery to client 2 is
obtained from the characterisation. -/
theorem broadcast_delivers_to_all_other_authenticated_witness :
    ((2 : Nat), statusLine "BSY" "a@x" "a@x") ∈
      broadcastStatusChange
        [⟨1, "a@x", "BSY", true, true⟩, ⟨2, "c@x", "NLN", true, true⟩]
        ⟨1, "a@x", "BSY", true, true⟩ "a@x" :=
  (broadcast_delivers_to_all_other_authenticated
      [⟨1, "a@x", "BSY", true, true⟩, ⟨2, "c@x", "NLN", true, true⟩]
      ⟨1, "a@x", "BSY", true, true⟩ "a@x").1
    ⟨2, "c@x", "NLN", true, true⟩ (by decide) (by decide)

/-- C5 counterexample: an authenticated `SYN 9` with two stored
contacts.  The claim requires the `SYN t N G` header first and the
`LST` lines after it, sorted by peer ascending; the code emits the
`LST` lines first, in store order (`c@x` before `b@x`), and sends the
`SYN` line last, so the head of the output is not the header. -/
theorem syn_header_not_first :
    handleSyn true [⟨"c@x", "Carol", "FL"⟩, ⟨"b@x", "Bob", "FL"⟩] "9" =
      ["LST c@x Carol FL\r\n", "LST b@x Bob FL\r\n", "SYN 9 2 0\r\n"] ∧
    (handleSyn true [⟨"c@x", "Carol", "FL"⟩, ⟨"b@x", "Bob", "FL"⟩]
        "9").head? ≠ some "SYN 9 2 0\r\n" := by
  refine ⟨rfl, by decide⟩

/-- C5 as amended: for an authenticated `SYN`, each handler emits
exactly one `LST` line per contact, in the order the store returned
them and with the stored list tag - no sorting by peer identity or by
list bitmask, and no bitmask computation - together with the line
`SYN t N 0` where `N` is the total contact count; the asyncio handler
sends that line last, after all `LST` lines, while the threaded server
sends it first, as the header. -/
theorem syn_emits_lst_then_trailer (contacts : List Contact)
    (t : String) :
    handleSyn true contacts t =
      contacts.map lstLine ++
        ["SYN " ++ t ++ " " ++ toString contacts.length ++ " 0\r\n"] ∧
    (handleSyn true contacts t).getLast? =
      some ("SYN " ++ t ++ " " ++ toString contacts.length ++
        " 0\r\n") ∧
    (handleSyn true contacts t).length = contacts.length + 1 ∧
    handleSynThreaded true contacts t =
      ("SYN " ++ t ++ " " ++ toString contacts.length ++ " 0\r\n") ::
        contacts.map lstLine ∧
    (handleSynThreaded true contacts t).head? =
      some ("SYN " ++ t ++ " " ++ toString contacts.length ++
        " 0\r\n") ∧
    (handleSynThreaded true contacts t).length =
      contacts.length + 1 := by
  refine ⟨rfl, ?_, by simp [handleSyn], rfl, rfl,
    by simp [handleSynThreaded]⟩
  show (contacts.map lstLine ++ [_]).getLast? = _
  rw [List.getLast?_concat]

/-- C6 counterexample: a failed transaction on the threaded server (an
unauthenticated `SYN` with transaction id 5).  The emitted error line
is `911\r\n`: it is a single numeric-code line, but it does not carry
the originating transaction id - no character `5` occurs in it. -/
theorem threaded_error_line_lacks_transaction_id :
    handleSynThreaded false [] "5" = ["911\r\n"] ∧
    (("911\r\n" : String).toList.contains '5') = false := by
  refine ⟨rfl, by decide⟩

/-- C6 as amended: every failed transaction emits exactly one
numeric-code line; in the asyncio handler that line is
`f'{code} {t}'` and carries the transaction id, while the threaded
server's `send_error` builds `f'{code}'` and the transaction id is
dropped. -/
theorem error_lines_shape (t : String) (contacts : List Contact) :
    handleSyn false contacts t = ["911 " ++ t ++ "\r\n"] ∧
    handleSynThreaded false contacts t = ["911\r\n"] ∧
    sendError t 911 = "911 " ++ t ++ "\r\n" ∧
    sendErrorThreaded "911" = "911\r\n" := ⟨rfl, rfl, rfl, rfl⟩

/-- C7: the claim says the bare line `OUT\r\n` (no transaction id) is
always honored with an `OUT` echo and a close.  But
`MSNPProtocolHandler.process_command` splits the line into tokens and
returns immediately when there are fewer than two, so the one-token
line `OUT` never reaches any handler: nothing is sent and nothing is
closed.  The dispatch table does contain an `OUT` entry whose handler
would echo `OUT\r\n`, but for the protocol-correct bare form it is
unreachable - a code bug. -/
theorem bare_out_line_is_dropped :
    routeCommand "OUT" = none ∧
    knownVerbs.contains "OUT" = true ∧
    (handleOut emptyCM 1).2 = ["OUT\r\n"] := by
  refine ⟨by decide, by decide, rfl⟩

/-- C8 counterexample: the (owner, peer, list) triple is already in the
store with nickname `Bob`.  `ADD` of the same triple hits the
`UNIQUE(owner_email, contact_email, list_type)` constraint and changes
nothing, and the following `REM` deletes the pre-existing row, so the
store ends up empty instead of identical to its pre-`ADD` state. -/
theorem add_rem_not_identity_on_existing :
    removeContact
        (addContact [⟨"a@x", "b@x", "Bob", "FL"⟩] "a@x" "b@x" "Bobby"
          "FL").1 "a@x" "b@x" "FL" = [] ∧
    ([] : List DBContact) ≠ [⟨"a@x", "b@x", "Bob", "FL"⟩] := by
  refine ⟨rfl, by decide⟩

/-- C8 as amended: `ADD` then `REM` of the same (list, peer) restores
the store to its pre-`ADD` state provided the (owner, peer, list)
triple was not already present; when it was, the `ADD` is rejected as a
duplicate and the `REM` deletes the pre-existing entry. -/
theorem add_then_rem_restores_when_fresh (st : List DBContact)
    (owner peer nickname listType : String)
    (h : st.any (fun c => contactKeyMatches c owner peer listType) =
      false) :
    removeContact (addContact st owner peer nickname listType).1 owner
      peer listType = st := by
  have hadd : (addContact st owner peer nickname listType).1 =
      st ++ [DBContact.mk owner peer nickname listType] := by
    unfold addContact
    rw [if_neg (by simp [h])]
  rw [hadd]
  unfold removeContact
  rw [List.filter_append]
  have h1 : st.filter
      (fun c => !(contactKeyMatches c owner peer listType)) = st := by
    rw [List.filter_eq_self]
    intro a ha
    have hfa : contactKeyMatches a owner peer listType = false := by
      have := List.any_eq_false.mp h a ha
      simpa using this
    simp [hfa]
  have h2 : List.filter
      (fun c => !(contactKeyMatches c owner peer listType))
      [DBContact.mk owner peer nickname listType] =
      ([] : List DBContact) := by
    simp [contactKeyMatches]
  rw [h1, h2, List.append_nil]

/-- C8 witness: on the empty store, `ADD` of (a@x, b@x, FL) then `REM`
of the same key leaves the store empty again. -/
theorem add_then_rem_restores_when_fresh_witness :
    removeContact (addContact [] "a@x" "b@x" "Bob" "FL").1 "a@x" "b@x"
      "FL" = [] :=
  add_then_rem_restores_when_fresh [] "a@x" "b@x" "Bob" "FL"
    (by decide)

/-- C9: `ClientManager.add_client` (called by `handle_usr` on
successful authentication, before `USR t OK` is sent) records the new
session with status `'NLN'`, and the only mutating `ClientManager`
calls a later command history can make are modelled by `CMOp`; the
status of a client is rewritten only by `update_client_status`, whose
sole caller is the `CHG` handler.  So for any wellformed prior state
and any subsequent call sequence that contains no `CHG`-induced update
for this session and no disconnect of its writer, the session is still
registered with status `'NLN'`, and any other user's
`get_online_contacts` query observes it as `(identity, 'NLN')`. -/
theorem no_chg_after_auth_presence_is_nln (st : CMState) (w : Nat)
    (e : String) (ops : List CMOp) (q : String) (hwf : wf st)
    (hops : ops.all (noTouch (addClient st w e).2 w) = true)
    (hq : q ≠ e) :
    ClientInfo.mk (addClient st w e).2 w e "NLN" ∈
      (applyOps (addClient st w e).1 ops).clients ∧
    (e, "NLN") ∈
      getOnlineContacts (applyOps (addClient st w e).1 ops) q := by
  have hc : ClientInfo.mk st.nextClientId w e "NLN" ∈
      (addClient st w e).1.clients := by
    show _ ∈ st.clients ++ [ClientInfo.mk st.nextClientId w e "NLN"]
    exact List.mem_append.mpr (Or.inr (List.mem_singleton.mpr rfl))
  have hmem := mem_applyOps_of_noTouch ops (addClient st w e).1
    (wf_addClient hwf w e) hc hops
  refine ⟨hmem, ?_⟩
  refine List.mem_map.mpr ⟨ClientInfo.mk st.nextClientId w e "NLN",
    List.mem_filter.mpr ⟨hmem, ?_⟩, rfl⟩
  rw [Bool.and_eq_true]
  refine ⟨bne_iff_ne.mpr (Ne.symm hq), bne_iff_ne.mpr ?_⟩
  show ("NLN" : String) ≠ "HDN"
  decide

/-- C9 witness: a fresh server; `a@x` authenticates, then a second user
`b@x` logs in and changes status - neither call touches `a@x`'s
session - and `b@x`'s online-contacts query sees `a@x` as `NLN`. -/
theorem no_chg_after_auth_presence_is_nln_witness :
    ("a@x", "NLN") ∈ getOnlineContacts
      (applyOps (addClient emptyCM 1 "a@x").1
        [CMOp.add 2 "b@x", CMOp.update 2 "BSY"]) "b@x" :=
  (no_chg_after_auth_presence_is_nln emptyCM 1 "a@x"
      [CMOp.add 2 "b@x", CMOp.update 2 "BSY"] "b@x"
      ⟨List.nodup_nil, fun c hc => absurd hc (List.not_mem_nil c)⟩
      (by decide) (by decide)).2

/-- C10: every entry returned by
`ClientManager.get_online_contacts(email)` reflects a currently
connected client whose email differs from the queried email and whose
status is not `'HDN'`.  Since an entry's status equals the client's
current status, a hidden client can never appear in any other user's
result. -/
theorem get_online_contacts_sound (st : CMState) (q : String)
    (x : String × String) (hx : x ∈ getOnlineContacts st q) :
    (∃ c, c ∈ st.clients ∧ c.email = x.1 ∧ c.status = x.2) ∧
    x.1 ≠ q ∧ x.2 ≠ "HDN" := by
  rcases List.mem_map.mp hx with ⟨c, hcf, hcx⟩
  rcases List.mem_filter.mp hcf with ⟨hcmem, hpred⟩
  rw [Bool.and_eq_true] at hpred
  subst hcx
  exact ⟨⟨c, hcmem, rfl, rfl⟩, bne_iff_ne.mp hpred.1,
    bne_iff_ne.mp hpred.2⟩

/-- A concrete one-client registry used to instantiate C10. -/
def sampleCM : CMState := ⟨[⟨1, 1, "a@x", "NLN"⟩], [("a@x", 1)], 2⟩

/-- C10 witness: in `sampleCM`, the entry `("a@x", "NLN")` observed by
`b@x` comes from a registered non-hidden client other than `b@x`. -/
theorem get_online_contacts_sound_witness :
    (∃ c, c ∈ sampleCM.clients ∧ c.email = "a@x" ∧
      c.status = "NLN") ∧
    ("a@x" : String) ≠ "b@x" ∧ ("NLN" : String) ≠ "HDN" :=
  get_online_contacts_sound sampleCM "b@x" ("a@x", "NLN") (by decide)

end MSNServer
